import Mathlib

/-!
# Verification of the pm-email-validator core

A shallow embedding, in Lean 4, of the core of the `pm-email-validator`
TypeScript library: the SMTP probe state machine (`src/core/smtp.ts`), the
catch-all detector (`src/core/catchAll.ts`), the DNS resolver
(`src/core/dns.ts`), the DNS cache (`src/core/cache.ts`), the rate limiter
(`src/core/limiter.ts`), the scoring reducer (`src/core/scoring.ts`), the
email normalizer (`src/core/normalize.ts`) and the early (pre-network) part
of the validation pipeline (`src/verify.ts`).

Network I/O is modelled by explicit oracles: the responses a remote server
would send are passed in as data (event lists, resolution worlds, per-host
outcome functions), and the event-driven socket callbacks of the source are
modelled as a pure transition function on an explicit session state, exactly
following the source's control flow.
-/

namespace PmEmail

/-! ## Embedding of the JavaScript string primitives used by the source -/

/-- ASCII whitespace as used by JS `String.prototype.trim` on the inputs this
library handles (space, tab, CR, LF, vertical tab, form feed). -/
def isJsWhitespace (c : Char) : Bool :=
  c = ' ' || c = '\t' || c = '\n' || c = '\r' || c = Char.ofNat 11 || c = Char.ofNat 12

/-- Trim whitespace from both ends of a character list. -/
def trimChars (l : List Char) : List Char :=
  ((l.dropWhile isJsWhitespace).reverse.dropWhile isJsWhitespace).reverse

/-- Embedding of JS `String.prototype.trim`. -/
def jsTrim (s : String) : String :=
  String.mk (trimChars s.toList)

/-- Predicate `charsStartWith l p` holds when `p` is an initial segment of `l`;
embedding of JS `String.prototype.startsWith` at the character level. -/
def charsStartWith : List Char → List Char → Bool
  | _, [] => true
  | [], _ :: _ => false
  | a :: as, b :: bs => (a = b) && charsStartWith as bs

/-- Embedding of JS `s.startsWith(p)`. -/
def strStartsWith (s p : String) : Bool :=
  charsStartWith s.toList p.toList

/-- Embedding of JS `s.split(sep)` for a single-character separator, at the
character level.  Always returns a non-empty list of segments. -/
def splitOnChar (sep : Char) : List Char → List (List Char)
  | [] => [[]]
  | c :: cs =>
    let rest := splitOnChar sep cs
    if c = sep then [] :: rest
    else
      match rest with
      | [] => [[c]]
      | r :: rs => (c :: r) :: rs

/-- Embedding of JS `s.split("@")` (and other single-char splits),
producing strings. -/
def jsSplit (sep : Char) (s : String) : List String :=
  (splitOnChar sep s.toList).map String.mk

/-- Embedding of JS `s.split(/\r?\n/)`: split on every `\n`, consuming an
immediately preceding `\r`. -/
def splitCrNl : List Char → List (List Char)
  | [] => [[]]
  | '\r' :: '\n' :: cs => [] :: splitCrNl cs
  | '\n' :: cs => [] :: splitCrNl cs
  | c :: cs =>
    match splitCrNl cs with
    | [] => [[c]]
    | r :: rs => (c :: r) :: rs

/-- Embedding of `text.trim().split(/\r?\n/).pop() ?? ""` from
`connectAndProbe` / `smtpCatchAllProbe`: the last line of a received data
chunk. -/
def lastLineOf (text : String) : String :=
  String.mk ((splitCrNl (trimChars text.toList)).getLastD [])

/-! ## SMTP probe engine (`src/core/smtp.ts`) -/

/-- Embedding of `parseCode(line)`: the regex match `/^(\d{3})/` succeeds exactly when the
first three characters of the line are decimal digits; it returns those three
characters. -/
def parseCode (line : String) : Option String :=
  match line.toList with
  | c1 :: c2 :: c3 :: _ =>
    if c1.isDigit && c2.isDigit && c3.isDigit then some (String.mk [c1, c2, c3]) else none
  | _ => none

/-- Probe classification, `SmtpProbeResult.status` in the source. -/
inductive ProbeStatus where
  | valid
  | invalid
  | unknown
  deriving DecidableEq, Repr

/-- Record `SmtpProbeResult`: terminal result of one probe conversation. -/
structure SmtpProbeResult where
  status : ProbeStatus
  code : Option String := none
  deriving DecidableEq, Repr

/-- The conversation stage of a probe session. -/
inductive Stage where
  | greet
  | helo
  | mailfrom
  | rcpt
  | done
  deriving DecidableEq, Repr

/-- The observable state of one probe session: the current stage, the
resolution (set at most once, by `done(...)` in the source), and the commands
written to the socket so far. -/
structure SessionState where
  stage : Stage
  resolved : Option SmtpProbeResult := none
  sent : List String := []
  deriving DecidableEq, Repr

/-- Effect of one `data` event: the updated stage, commands written during the
event, and the resolution passed to `done(...)`, if any. -/
structure DataEffect where
  stage : Stage
  sent : List String := []
  outcome : Option SmtpProbeResult := none
  deriving DecidableEq, Repr

/-- The body of the `socket.on("data", ...)` handler of `connectAndProbe`,
for a session currently unresolved: compute the last line of the chunk and its
reply code, then walk the sequential stage checks exactly as the source does
(falling through to the early-rejection `code.startsWith("5")` check when no
stage branch returns). -/
def onData (email : String) (stage : Stage) (text : String) : DataEffect :=
  let lastLine := lastLineOf text
  match parseCode lastLine with
  | none => { stage := stage }
  | some code =>
    match stage with
    | .greet => { stage := .helo, sent := ["HELO localhost"] }
    | .helo =>
      if strStartsWith lastLine "250" then
        { stage := .mailfrom, sent := ["MAIL FROM:<probe@localhost>"] }
      else if strStartsWith code "5" then
        { stage := .done, outcome := some { status := .unknown, code := some code } }
      else
        { stage := .helo }
    | .mailfrom =>
      if strStartsWith lastLine "250" then
        { stage := .rcpt, sent := ["RCPT TO:<" ++ email ++ ">"] }
      else if strStartsWith code "5" then
        { stage := .done, outcome := some { status := .unknown, code := some code } }
      else
        { stage := .mailfrom }
    | .rcpt =>
      if strStartsWith lastLine "250" then
        { stage := .done, sent := ["QUIT"],
          outcome := some { status := .valid, code := some code } }
      else if strStartsWith lastLine "550" || strStartsWith lastLine "551"
          || strStartsWith lastLine "553" then
        { stage := .done, sent := ["QUIT"],
          outcome := some { status := .invalid, code := some code } }
      else if strStartsWith lastLine "4" then
        { stage := .done, sent := ["QUIT"],
          outcome := some { status := .unknown, code := some code } }
      else if strStartsWith code "5" then
        { stage := .done, outcome := some { status := .unknown, code := some code } }
      else
        { stage := .rcpt }
    | .done =>
      if strStartsWith code "5" then
        { stage := .done, outcome := some { status := .unknown, code := some code } }
      else
        { stage := .done }

/-- Events a probe session can receive: a data chunk, the deadline timer,
a socket error, or a remote close. -/
inductive SessionEvent where
  | data (text : String)
  | timeout
  | socketError
  | socketEnd
  deriving DecidableEq, Repr

/-- One event step of a probe session.  A resolved session ignores all
further events (`done` returns immediately once `resolved` is set, and the
socket is destroyed on resolution, so no further `data` events occur).  The
timer, `error` and `end` handlers resolve an unresolved session to `unknown`
with no code. -/
def stepSession (email : String) (s : SessionState) (e : SessionEvent) : SessionState :=
  if s.resolved.isSome then s
  else
    match e with
    | .data text =>
      let eff := onData email s.stage text
      { stage := eff.stage, resolved := eff.outcome, sent := s.sent ++ eff.sent }
    | .timeout => { s with resolved := some { status := .unknown } }
    | .socketError => { s with resolved := some { status := .unknown } }
    | .socketEnd => { s with resolved := some { status := .unknown } }

/-- A whole probe session: start in `greet` with nothing sent and fold the
received events. -/
def runSession (email : String) (events : List SessionEvent) : SessionState :=
  events.foldl (stepSession email) { stage := .greet }

/-! ## Rate limiter (`src/core/limiter.ts`)

`Date.now()` timestamps are modelled as integers (millisecond clock values).
`allow` is given the bucket stored for the key and the current time, and
returns the admission decision together with the bucket written back. -/

/-- Embedding of `RateLimiter.allow` for one key: prune timestamps older than
`now - windowMs` from the stored bucket, admit (append `now`, return `true`)
iff the pruned length is below `limit`, else return `false` with the bucket
left pruned but otherwise unmodified. -/
def rlAllow (limit : Nat) (windowMs : Int) (bucket : List Int) (now : Int) :
    Bool × List Int :=
  let windowStart := now - windowMs
  let fresh := bucket.filter (fun ts => windowStart ≤ ts)
  if limit ≤ fresh.length then (false, fresh)
  else (true, fresh ++ [now])

/-- A sequence of `allow` calls for one key, at the given clock times, starting
from the given bucket; returns the admission decisions and the final bucket. -/
def rlAllowSeq (limit : Nat) (windowMs : Int) (bucket : List Int) :
    List Int → List Bool × List Int
  | [] => ([], bucket)
  | now :: rest =>
    let (ok, b') := rlAllow limit windowMs bucket now
    let (oks, bf) := rlAllowSeq limit windowMs b' rest
    (ok :: oks, bf)

/-! ## DNS cache (`src/core/cache.ts`)

The backing JS `Map` preserves insertion order and `delete`-then-`set` moves a
key to the end, so the store is modelled as an association list in
insertion/recency order (least recently touched first). -/

/-- Record `CacheEntry<T>`. -/
structure CacheEntry (V : Type) where
  data : V
  expiresAt : Int
  deriving DecidableEq, Repr

/-- A cache store: entries in recency order, least recently touched first. -/
abbrev CacheStore (V : Type) := List (String × CacheEntry V)

/-- Embedding of `Map.delete(key)`: remove the entry for `key`. -/
def storeDelete {V : Type} (store : CacheStore V) (k : String) : CacheStore V :=
  store.filter (fun p => p.1 ≠ k)

/-- Embedding of `Map.get(key)`: the entry stored for `key`, if any. -/
def storeFind {V : Type} (store : CacheStore V) (k : String) : Option (CacheEntry V) :=
  (store.find? (fun p => p.1 = k)).map (·.2)

/-- Embedding of `DnsCache.get(key)` at clock time `now`: a missing key returns `undefined`;
an entry with `Date.now() > expiresAt` is deleted and reported absent; a live
entry is re-inserted at the recency end (delete then set) and returned.
Returns the reported entry and the store written back. -/
def cacheGet {V : Type} (store : CacheStore V) (k : String) (now : Int) :
    Option (CacheEntry V) × CacheStore V :=
  match storeFind store k with
  | none => (none, store)
  | some entry =>
    if entry.expiresAt < now then (none, storeDelete store k)
    else (some entry, storeDelete store k ++ [(k, entry)])

/-- Embedding of `DnsCache.set(key, data, ttlMs?)` at clock time `now` on a cache with
capacity `maxEntries` and default TTL `ttlMs`: build the entry with
`expiresAt = now + (ttl ?? default)`, delete any existing entry for the key,
append the new entry at the recency end, and if the store now exceeds
`maxEntries` delete the single first (least recently touched) key. -/
def cacheSet {V : Type} (maxEntries : Nat) (ttlMs : Int) (store : CacheStore V)
    (k : String) (data : V) (ttl : Option Int) (now : Int) : CacheStore V :=
  let entry : CacheEntry V := { data := data, expiresAt := now + ttl.getD ttlMs }
  let s1 := storeDelete store k ++ [(k, entry)]
  if maxEntries < s1.length then
    match s1.head? with
    | some oldest => storeDelete s1 oldest.1
    | none => s1
  else s1

/-! ## DNS resolver (`src/core/dns.ts`)

Each of the five lookups is independently time-boxed and error-absorbed in the
source (`resolveCached` catches every rejection and returns a
success-or-failure envelope), so the network is modelled as a *world* handing
the envelope each lookup would produce. -/

/-- The success/failure envelope a lookup produces (`ResolveResult<T>`);
the error payload is irrelevant to the caller and dropped. -/
inductive ResolveOutcome (T : Type) where
  | ok (records : T)
  | err
  deriving DecidableEq, Repr

/-- One MX record as returned by `dns.resolveMx`. -/
structure MxRecord where
  exchange : String
  priority : Nat
  deriving DecidableEq, Repr

/-- The envelopes the five lookups of `checkDNS` would observe for one domain
(MX, root TXT, `_dmarc` TXT, A, AAAA). -/
structure DnsWorld where
  mx : ResolveOutcome (List MxRecord)
  rootTxt : ResolveOutcome (List (List String))
  dmarcTxt : ResolveOutcome (List (List String))
  a : ResolveOutcome (List String)
  aaaa : ResolveOutcome (List String)
  deriving DecidableEq, Repr

/-- The option record accepted by `checkDNS`; a lookup runs unless its toggle
is literally `false` (`opts.mx !== false`, etc.).  The timeout and the cache
only affect which envelope the world hands back, not the control flow, and
are absorbed into `DnsWorld`. -/
structure DnsOpts where
  mx : Option Bool := none
  spf : Option Bool := none
  dmarc : Option Bool := none
  deriving DecidableEq, Repr

/-- Embedding of `flattenTxt`: join each record's chunks and drop empty strings
(`.filter(Boolean)`). -/
def flattenTxt (records : List (List String)) : List String :=
  (records.map (fun chunks => String.join chunks)).filter (fun s => s ≠ "")

/-- Embedding of `hasSpfRecord`: some record starts with `v=spf1` case-insensitively. -/
def hasSpfRecord (records : List String) : Bool :=
  records.any (fun record => strStartsWith record.toLower "v=spf1")

/-- Embedding of `hasDmarcRecord`: some record starts with `v=dmarc1` case-insensitively. -/
def hasDmarcRecord (records : List String) : Bool :=
  records.any (fun record => strStartsWith record.toLower "v=dmarc1")

/-- Embedding of `computeDomainExists`. -/
def computeDomainExists (mx txtAtRoot hasA hasAAAA : Bool) : Bool :=
  mx || txtAtRoot || hasA || hasAAAA

/-- Record `DnsResult` (`DnsOutcome` in the spec). -/
structure DnsResult where
  domain : String
  domainExists : Bool
  mx : Option Bool := none
  spf : Option Bool := none
  dmarc : Option Bool := none
  mxHosts : Option (List String) := none
  deriving DecidableEq, Repr

/-- Embedding of `checkDNS(domain, opts, cache)` against a resolution world: run the
enabled lookups, derive the `mx`/`spf`/`dmarc` fields and `mxHosts`, and
compute `domainExists` from the `mx` field, the root TXT records gathered by
the SPF branch, and the A/AAAA results. -/
def checkDNS (domain : String) (opts : DnsOpts) (w : DnsWorld) : DnsResult :=
  let checkMx := opts.mx ≠ some false
  let checkSpf := opts.spf ≠ some false
  let checkDmarc := opts.dmarc ≠ some false
  let mxRes : Option (ResolveOutcome (List MxRecord)) :=
    if checkMx then some w.mx else none
  let spfTxtRes : Option (ResolveOutcome (List (List String))) :=
    if checkSpf then some w.rootTxt else none
  let dmarcTxtRes : Option (ResolveOutcome (List (List String))) :=
    if checkDmarc then some w.dmarcTxt else none
  let mxFields : Option Bool × Option (List String) :=
    if checkMx then
      match mxRes with
      | some (.ok records) =>
        if 0 < records.length then (some true, some (records.map (·.exchange)))
        else (some false, none)
      | _ => (some false, none)
    else (none, none)
  let rootTxtRecords : List String :=
    if checkSpf then
      match spfTxtRes with
      | some (.ok records) => flattenTxt records
      | _ => []
    else []
  let spfField : Option Bool :=
    if checkSpf then
      match spfTxtRes with
      | some (.ok _) => some (hasSpfRecord rootTxtRecords)
      | _ => some false
    else none
  let dmarcField : Option Bool :=
    if checkDmarc then
      match dmarcTxtRes with
      | some (.ok records) => some (hasDmarcRecord (flattenTxt records))
      | _ => some false
    else none
  let hasA := match w.a with | .ok records => 0 < records.length | .err => false
  let hasAAAA := match w.aaaa with | .ok records => 0 < records.length | .err => false
  { domain := domain
    domainExists :=
      computeDomainExists (mxFields.1 = some true) (0 < rootTxtRecords.length) hasA hasAAAA
    mx := mxFields.1
    spf := spfField
    dmarc := dmarcField
    mxHosts := mxFields.2 }

/-- At least one MX record resolves in this world. -/
def worldMxPresent (w : DnsWorld) : Bool :=
  match w.mx with | .ok records => 0 < records.length | .err => false

/-- At least one root TXT record with non-empty content resolves in this
world. -/
def worldRootTxtPresent (w : DnsWorld) : Bool :=
  match w.rootTxt with | .ok records => 0 < (flattenTxt records).length | .err => false

/-- At least one A record resolves in this world. -/
def worldAPresent (w : DnsWorld) : Bool :=
  match w.a with | .ok records => 0 < records.length | .err => false

/-- At least one AAAA record resolves in this world. -/
def worldAaaaPresent (w : DnsWorld) : Bool :=
  match w.aaaa with | .ok records => 0 < records.length | .err => false

/-- The spec's reading of domain existence, stated over the resolution world
itself: `domainExists` is claimed true iff any of {MX present, root TXT
present, A record present, AAAA record present} holds.  (Comparison
definition for the refinement claim; the source truth is `checkDNS`.) -/
def specDomainExists (w : DnsWorld) : Bool :=
  worldMxPresent w || worldRootTxtPresent w || worldAPresent w || worldAaaaPresent w

/-! ## `probeSmtp` (`src/core/smtp.ts`)

The per-host conversation (`connectAndProbe`) is abstracted as an oracle
giving the outcome each host's conversation resolves to; `probeSmtp` first
consults the rate limiter, then the MX-only DNS lookup, then walks the hosts
sequentially.  The model additionally reports how many DNS lookups were made
and which hosts were connected to, so absence of network I/O is provable. -/

/-- The `for (const host of mxHosts)` loop of `probeSmtp`: return the first
per-host outcome whose status is not `unknown`; record the hosts attempted. -/
def probeHosts (probe : String → SmtpProbeResult) :
    List String → SmtpProbeResult × List String
  | [] => ({ status := .unknown }, [])
  | host :: rest =>
    let result := probe host
    if result.status ≠ .unknown then (result, [host])
    else
      let (r, hs) := probeHosts probe rest
      (r, host :: hs)

/-- Embedding of `probeSmtp(domain, email, opts, limiter, cache)`: consult the limiter
(modelled by this key's stored bucket and the clock); if denied return
`unknown`/`rate_limited` at once; otherwise resolve MX hosts with an MX-only
`checkDNS` call and try each host in order.  Returns the outcome, the number
of DNS lookups performed, and the hosts connected to. -/
def probeSmtp (domain : String) (limit : Nat) (windowMs : Int) (bucket : List Int)
    (now : Int) (w : DnsWorld) (probe : String → SmtpProbeResult) :
    SmtpProbeResult × Nat × List String :=
  let allowed := (rlAllow limit windowMs bucket now).1
  if !allowed then ({ status := .unknown, code := some "rate_limited" }, 0, [])
  else
    let dnsResult := checkDNS domain { mx := some true, spf := some false, dmarc := some false } w
    let mxHosts := dnsResult.mxHosts.getD []
    if mxHosts.length = 0 then ({ status := .unknown }, 1, [])
    else
      let (r, hs) := probeHosts probe mxHosts
      (r, 1, hs)

/-! ## Catch-all detector (`src/core/catchAll.ts`)

`smtpCatchAllProbe` duplicates the probe state machine but interprets the
RCPT stage differently: it always QUITs there, reporting `accepts` plus an
`error` marker on the inconclusive codes.  The per-host conversation is again
a pure transition function on session states. -/

/-- The result one `smtpCatchAllProbe` conversation resolves to. -/
structure CatchAllProbeOutcome where
  accepts : Bool
  code : Option String := none
  error : Option String := none
  deriving DecidableEq, Repr

/-- Session state for one catch-all probe conversation. -/
structure CaSessionState where
  stage : Stage
  resolved : Option CatchAllProbeOutcome := none
  sent : List String := []
  deriving DecidableEq, Repr

/-- Effect of one `data` event in `smtpCatchAllProbe`. -/
structure CaDataEffect where
  stage : Stage
  sent : List String := []
  outcome : Option CatchAllProbeOutcome := none
  deriving DecidableEq, Repr

/-- The `socket.on("data", ...)` handler of `smtpCatchAllProbe`: identical to
the mailbox probe until RCPT; at RCPT it clears the timer, sends `QUIT` and
classifies: `250` accepted, `550`/`551`/`553` rejected, `4xx` marked
`temporary_error`, anything else marked `unexpected_response`; a `5xx` before
RCPT is marked `rejected_early`. -/
def caOnData (testEmail : String) (stage : Stage) (text : String) : CaDataEffect :=
  let lastLine := lastLineOf text
  match parseCode lastLine with
  | none => { stage := stage }
  | some code =>
    match stage with
    | .greet => { stage := .helo, sent := ["HELO localhost"] }
    | .helo =>
      if strStartsWith lastLine "250" then
        { stage := .mailfrom, sent := ["MAIL FROM:<probe@localhost>"] }
      else if strStartsWith code "5" then
        { stage := .done,
          outcome := some { accepts := false, code := some code, error := some "rejected_early" } }
      else
        { stage := .helo }
    | .mailfrom =>
      if strStartsWith lastLine "250" then
        { stage := .rcpt, sent := ["RCPT TO:<" ++ testEmail ++ ">"] }
      else if strStartsWith code "5" then
        { stage := .done,
          outcome := some { accepts := false, code := some code, error := some "rejected_early" } }
      else
        { stage := .mailfrom }
    | .rcpt =>
      if strStartsWith lastLine "250" then
        { stage := .done, sent := ["QUIT"],
          outcome := some { accepts := true, code := some code } }
      else if strStartsWith lastLine "550" || strStartsWith lastLine "551"
          || strStartsWith lastLine "553" then
        { stage := .done, sent := ["QUIT"],
          outcome := some { accepts := false, code := some code } }
      else if strStartsWith lastLine "4" then
        { stage := .done, sent := ["QUIT"],
          outcome := some { accepts := false, code := some code, error := some "temporary_error" } }
      else
        { stage := .done, sent := ["QUIT"],
          outcome := some { accepts := false, code := some code,
                            error := some "unexpected_response" } }
    | .done =>
      if strStartsWith code "5" then
        { stage := .done,
          outcome := some { accepts := false, code := some code, error := some "rejected_early" } }
      else
        { stage := .done }

/-- One event step of a catch-all probe session; the timer reports `timeout`,
a socket error reports its message, a remote close reports
`connection_closed`. -/
def caStepSession (testEmail : String) (s : CaSessionState) (e : SessionEvent) :
    CaSessionState :=
  if s.resolved.isSome then s
  else
    match e with
    | .data text =>
      let eff := caOnData testEmail s.stage text
      { stage := eff.stage, resolved := eff.outcome, sent := s.sent ++ eff.sent }
    | .timeout => { s with resolved := some { accepts := false, error := some "timeout" } }
    | .socketError =>
      { s with resolved := some { accepts := false, error := some "socket_error" } }
    | .socketEnd =>
      { s with resolved := some { accepts := false, error := some "connection_closed" } }

/-- A whole catch-all probe conversation from the initial `greet` state. -/
def runCaSession (testEmail : String) (events : List SessionEvent) : CaSessionState :=
  events.foldl (caStepSession testEmail) { stage := .greet }

/-- Field type `CatchAllResult.confidence`. -/
inductive CaConfidence where
  | high
  | low
  deriving DecidableEq, Repr

/-- Field type `CatchAllResult.method`. -/
inductive CaMethod where
  | smtp_probe
  | heuristic
  | unknown
  deriving DecidableEq, Repr

/-- Record `CatchAllResult`. -/
structure CatchAllResult where
  isCatchAll : Bool
  confidence : CaConfidence
  method : CaMethod
  details : Option String := none
  deriving DecidableEq, Repr

/-- The `for (const host of mxHosts)` loop of `checkCatchAll`: a host whose
probe reports an `error` is skipped; the first host reporting no error decides
with high confidence; if every host is inconclusive the detector gives up with
low confidence. -/
def catchAllLoop (probe : String → CatchAllProbeOutcome) :
    List String → CatchAllResult
  | [] =>
    { isCatchAll := false, confidence := .low, method := .unknown,
      details := some "Could not connect to any MX host" }
  | host :: rest =>
    let result := probe host
    if result.error.isSome then catchAllLoop probe rest
    else if result.accepts then
      { isCatchAll := true, confidence := .high, method := .smtp_probe,
        details := some ("Random address accepted by " ++ host) }
    else
      { isCatchAll := false, confidence := .high, method := .smtp_probe,
        details := some ("Random address rejected with code "
          ++ (result.code.getD "undefined")) }

/-- Embedding of `checkCatchAll(domain, opts, cache)`: resolve MX hosts with an MX-only
`checkDNS` call; with no hosts report `{isCatchAll: false, confidence: low,
method: unknown}`; otherwise probe each host in turn with a randomly generated
address (the random address and each host's conversation are absorbed into the
probe oracle). -/
def checkCatchAll (domain : String) (w : DnsWorld)
    (probe : String → CatchAllProbeOutcome) : CatchAllResult :=
  let dnsResult := checkDNS domain { mx := some true, spf := some false, dmarc := some false } w
  let mxHosts := dnsResult.mxHosts.getD []
  if mxHosts.length = 0 then
    { isCatchAll := false, confidence := .low, method := .unknown,
      details := some "No MX records found" }
  else catchAllLoop probe mxHosts

/-! ## Scoring/verdict reducer (`src/core/scoring.ts`) -/

/-- The four-way verdict. -/
inductive Verdict where
  | valid
  | risky
  | unknown
  | invalid
  deriving DecidableEq, Repr

/-- The threshold triple consumed by `computeVerdict`. -/
structure Thresholds where
  valid : Int
  risky : Int
  unknown : Int
  deriving DecidableEq, Repr

/-- Constant `DEFAULT_THRESHOLDS`. -/
def DEFAULT_THRESHOLDS : Thresholds := { valid := 85, risky := 60, unknown := 30 }

/-- Embedding of `computeVerdict(score, thresholds)`: three ordered threshold checks. -/
def computeVerdict (score : Int) (thresholds : Option Thresholds) : Verdict :=
  let t := thresholds.getD DEFAULT_THRESHOLDS
  if t.valid ≤ score then .valid
  else if t.risky ≤ score then .risky
  else if t.unknown ≤ score then .unknown
  else .invalid

/-- The tier order `invalid < unknown < risky < valid` of the claim. -/
def verdictTier : Verdict → Nat
  | .invalid => 0
  | .unknown => 1
  | .risky => 2
  | .valid => 3

/-! ## Email normalization (`src/core/normalize.ts`) and the pipeline's
syntax gate (`src/verify.ts`)

`domainToASCII` comes from `node:url` and is modelled as an oracle
(`none` when it throws).  The part of `runValidation` up to and including the
fatal short-circuits is embedded with explicit effect counting; everything
after the two gates — the part that may touch the network — is an arbitrary
continuation, so the gate theorems hold for every possible rest of the
pipeline. -/

/-- The record returned by `normalizeEmail` on success. -/
structure NormalizedEmail where
  localPart : String
  domain : String
  normalizedEmail : String
  dnsDomain : String
  deriving DecidableEq, Repr

/-- Embedding of `normalizeEmail(email)`: trim, split on `@` (exactly two parts, both
non-empty), lowercase the domain, and convert it with `domainToASCII`
(failure or an empty result is rejected). -/
def normalizeEmail (toAscii : String → Option String) (email : String) :
    Except String NormalizedEmail :=
  let trimmed := jsTrim email
  match jsSplit '@' trimmed with
  | [localPart, domainRaw] =>
    if localPart = "" then .error "Email local part is missing"
    else if domainRaw = "" then .error "Email domain is missing"
    else
      let domain := domainRaw.toLower
      let normalizedEmail := localPart ++ "@" ++ domain
      match toAscii domain with
      | none => .error "Email domain is invalid"
      | some dnsDomain =>
        if dnsDomain = "" then .error "Email domain is invalid"
        else .ok { localPart := localPart, domain := domain,
                   normalizedEmail := normalizedEmail, dnsDomain := dnsDomain }
  | _ => .error "Email must contain a single @ symbol"

/-- Network side effects of one validation call. -/
structure NetworkEffects where
  dnsLookups : Nat
  smtpConnections : Nat
  deriving DecidableEq, Repr

/-- The verdict/confidence core of a validation result. -/
structure ResultCore where
  verdict : Verdict
  confidence : Int
  reasons : List String
  deriving DecidableEq, Repr

/-- Embedding of `buildInvalidResult`: the early-return result of `runValidation` when
normalization or the syntax gate fails. -/
def buildInvalidResult (reason : String) : ResultCore :=
  { verdict := .invalid, confidence := 0, reasons := [reason] }

/-- The head of `runValidation`: normalize (fatal short-circuit), then the
syntax gate (fatal short-circuit), then hand over to the rest of the pipeline.
`validateSyntax` is an external collaborator and, like the rest of the
pipeline, is a parameter; both fatal paths are taken before any DNS or SMTP
work, which the effect count records. -/
def runValidationGate (toAscii : String → Option String)
    (syntaxCheck : String → Option String)
    (rest : NormalizedEmail → ResultCore × NetworkEffects) (email : String) :
    ResultCore × NetworkEffects :=
  match normalizeEmail toAscii email with
  | .error reason => (buildInvalidResult reason, { dnsLookups := 0, smtpConnections := 0 })
  | .ok normalized =>
    match syntaxCheck normalized.normalizedEmail with
    | some reason => (buildInvalidResult reason, { dnsLookups := 0, smtpConnections := 0 })
    | none => rest normalized

/-! ## Helper lemmas -/

theorem charsStartWith_iff_append (P L : List Char) :
    charsStartWith L P = true ↔ ∃ t, L = P ++ t := by
  induction P generalizing L with
  | nil =>
    simp [charsStartWith.eq_def]
  | cons b bs ih =>
    cases L with
    | nil => simp [charsStartWith]
    | cons a as =>
      simp only [charsStartWith, Bool.and_eq_true, decide_eq_true_eq, ih,
        List.cons_append, List.cons.injEq]
      constructor
      · rintro ⟨rfl, t, rfl⟩
        exact ⟨t, rfl, rfl⟩
      · rintro ⟨t, rfl, rfl⟩
        exact ⟨rfl, t, rfl⟩

theorem starts_toList {l p : String} (h : strStartsWith l p = true) :
    ∃ t, l.toList = p.toList ++ t :=
  (charsStartWith_iff_append _ _).mp h

theorem parseCode_of_toList {l : String} {c1 c2 c3 : Char} {t : List Char}
    (hL : l.toList = c1 :: c2 :: c3 :: t)
    (h1 : c1.isDigit = true) (h2 : c2.isDigit = true) (h3 : c3.isDigit = true) :
    parseCode l = some (String.mk [c1, c2, c3]) := by
  unfold parseCode
  rw [hL]
  simp [h1, h2, h3]

/-! ## Claim theorems -/

/-- C1: at the `rcpt` stage of an unresolved probe session, a reply whose last
line starts with `250` resolves the session to `valid` with that code, one
starting with `550`, `551` or `553` resolves it to `invalid` with that code,
and one whose parsed code starts with `4` resolves it to `unknown` with that
code; in particular the conversation `220, 250, 250, 550` yields
`{status: invalid, code: "550"}` and the same conversation ending in `250`
yields `{status: valid, code: "250"}`. -/
theorem C1_rcpt_classification :
    (∀ (email : String) (s : SessionState) (text : String),
      s.stage = .rcpt → s.resolved = none →
      ((strStartsWith (lastLineOf text) "250" = true →
          (stepSession email s (.data text)).resolved
            = some { status := .valid, code := some "250" }) ∧
       (∀ c, (c = "550" ∨ c = "551" ∨ c = "553") →
          strStartsWith (lastLineOf text) c = true →
          (stepSession email s (.data text)).resolved
            = some { status := .invalid, code := some c }) ∧
       (∀ c, parseCode (lastLineOf text) = some c →
          strStartsWith (lastLineOf text) "4" = true →
          (stepSession email s (.data text)).resolved
            = some { status := .unknown, code := some c })))
    ∧ (runSession "user@example.com"
        [.data "220 mx ready", .data "250 ok", .data "250 ok",
         .data "550 no such user"]).resolved
        = some { status := .invalid, code := some "550" }
    ∧ (runSession "user@example.com"
        [.data "220 mx ready", .data "250 ok", .data "250 ok",
         .data "250 ok"]).resolved
        = some { status := .valid, code := some "250" } := by
  refine ⟨?_, by decide, by decide⟩
  intro email s text hst hres
  refine ⟨?_, ?_, ?_⟩
  · intro h250
    obtain ⟨t, ht⟩ := starts_toList h250
    rw [show ("250" : String).toList = ['2', '5', '0'] from by decide] at ht
    simp only [List.cons_append, List.nil_append] at ht
    have hp : parseCode (lastLineOf text) = some "250" := parseCode_of_toList ht rfl rfl rfl
    simp [stepSession, hres, onData, hst, hp, h250]
  · rintro c (rfl | rfl | rfl) hc
    · obtain ⟨t, ht⟩ := starts_toList hc
      rw [show ("550" : String).toList = ['5', '5', '0'] from by decide] at ht
      simp only [List.cons_append, List.nil_append] at ht
      have hp : parseCode (lastLineOf text) = some "550" := parseCode_of_toList ht rfl rfl rfl
      have h250 : strStartsWith (lastLineOf text) "250" = false := by
        unfold strStartsWith; rw [ht]; rfl
      simp [stepSession, hres, onData, hst, hp, h250, hc]
    · obtain ⟨t, ht⟩ := starts_toList hc
      rw [show ("551" : String).toList = ['5', '5', '1'] from by decide] at ht
      simp only [List.cons_append, List.nil_append] at ht
      have hp : parseCode (lastLineOf text) = some "551" := parseCode_of_toList ht rfl rfl rfl
      have h250 : strStartsWith (lastLineOf text) "250" = false := by
        unfold strStartsWith; rw [ht]; rfl
      simp [stepSession, hres, onData, hst, hp, h250, hc]
    · obtain ⟨t, ht⟩ := starts_toList hc
      rw [show ("553" : String).toList = ['5', '5', '3'] from by decide] at ht
      simp only [List.cons_append, List.nil_append] at ht
      have hp : parseCode (lastLineOf text) = some "553" := parseCode_of_toList ht rfl rfl rfl
      have h250 : strStartsWith (lastLineOf text) "250" = false := by
        unfold strStartsWith; rw [ht]; rfl
      simp [stepSession, hres, onData, hst, hp, h250, hc]
  · intro c hp h4
    obtain ⟨t, ht⟩ := starts_toList h4
    rw [show ("4" : String).toList = ['4'] from by decide] at ht
    simp only [List.cons_append, List.nil_append] at ht
    have h250 : strStartsWith (lastLineOf text) "250" = false := by
      unfold strStartsWith; rw [ht]; rfl
    have h550 : strStartsWith (lastLineOf text) "550" = false := by
      unfold strStartsWith; rw [ht]; rfl
    have h551 : strStartsWith (lastLineOf text) "551" = false := by
      unfold strStartsWith; rw [ht]; rfl
    have h553 : strStartsWith (lastLineOf text) "553" = false := by
      unfold strStartsWith; rw [ht]; rfl
    simp [stepSession, hres, onData, hst, hp, h250, h550, h551, h553, h4]

/-- Witness for C1 at concrete inputs. -/
theorem C1_rcpt_classification_witness :
    (stepSession "a@b.com" { stage := .rcpt } (.data "250 ok")).resolved
      = some { status := .valid, code := some "250" } :=
  ((C1_rcpt_classification.1 "a@b.com" { stage := .rcpt } "250 ok" rfl rfl).1) (by decide)

/-- Counterexample to C3: a session in the `helo` stage receiving the non-250
reply `550 nope` does not stall — it resolves immediately to
`{status: unknown, code: "550"}` via the early-rejection branch, instead of
waiting for the timeout. -/
theorem C3_stall_counterexample :
    (runSession "user@example.com" [.data "220 hi", .data "550 nope"]).resolved
        = some { status := .unknown, code := some "550" }
      ∧ (runSession "user@example.com" [.data "220 hi", .data "550 nope"]).stage
        = .done := by
  decide

/-- C3 as amended: at the `helo` or `mailfrom` stage of an unresolved probe
session, a reply bearing a code that is not `250` and does not start with `5`
leaves the session unchanged (same stage, nothing sent, no resolution), so
such a session terminates only via the timeout or a socket error/end, each of
which resolves it to `unknown`; a reply whose code starts with `5`, however,
resolves the session immediately to `unknown` with that code. -/
theorem C3_helo_mailfrom_behavior :
    (∀ (email : String) (s : SessionState) (text : String) (c : String),
      (s.stage = .helo ∨ s.stage = .mailfrom) → s.resolved = none →
      parseCode (lastLineOf text) = some c →
      strStartsWith (lastLineOf text) "250" = false →
      ((strStartsWith c "5" = false → stepSession email s (.data text) = s) ∧
       (strStartsWith c "5" = true →
          stepSession email s (.data text)
            = { stage := .done,
                resolved := some { status := .unknown, code := some c },
                sent := s.sent })))
    ∧ (∀ (email : String) (s : SessionState), s.resolved = none →
        stepSession email s .timeout = { s with resolved := some { status := .unknown } }
        ∧ stepSession email s .socketError
            = { s with resolved := some { status := .unknown } }
        ∧ stepSession email s .socketEnd
            = { s with resolved := some { status := .unknown } }) := by
  constructor
  · intro email s text c hst hres hp h250
    constructor
    · intro h5
      rcases hst with hst | hst <;>
        · cases s
          simp_all [stepSession, onData]
    · intro h5
      rcases hst with hst | hst <;>
        · cases s
          simp_all [stepSession, onData]
  · intro email s hres
    refine ⟨?_, ?_, ?_⟩ <;> simp [stepSession, hres]

/-- Witness for the amended C3 at concrete inputs. -/
theorem C3_helo_mailfrom_behavior_witness :
    stepSession "a@b.com" { stage := .helo } (.data "421 busy") = { stage := .helo } :=
  ((C3_helo_mailfrom_behavior.1 "a@b.com" { stage := .helo } "421 busy" "421"
    (Or.inl rfl) rfl (by decide) (by decide)).1) (by decide)

/-- The host loop returns the outcome of the first host whose probe is not
`unknown`, having connected to exactly the hosts up to and including it. -/
theorem probeHosts_first (probe : String → SmtpProbeResult) (hs1 : List String)
    (h : String) (hs2 : List String) (hall : ∀ x ∈ hs1, (probe x).status = .unknown)
    (hne : (probe h).status ≠ .unknown) :
    probeHosts probe (hs1 ++ h :: hs2) = (probe h, hs1 ++ [h]) := by
  induction hs1 with
  | nil => simp [probeHosts, hne]
  | cons a tl ih =>
    have ha : (probe a).status = .unknown := hall a (by simp)
    have htl : ∀ x ∈ tl, (probe x).status = .unknown := fun x hx => hall x (by simp [hx])
    simp [probeHosts, ha, ih htl]

/-- When every host's probe is `unknown`, the host loop connects to every host
and reports a bare `unknown`. -/
theorem probeHosts_all_unknown (probe : String → SmtpProbeResult) (hosts : List String)
    (hall : ∀ x ∈ hosts, (probe x).status = .unknown) :
    probeHosts probe hosts = ({ status := .unknown }, hosts) := by
  induction hosts with
  | nil => simp [probeHosts]
  | cons a tl ih =>
    have ha : (probe a).status = .unknown := hall a (by simp)
    have htl : ∀ x ∈ tl, (probe x).status = .unknown := fun x hx => hall x (by simp [hx])
    simp [probeHosts, ha, ih htl]

/-- C2: `probeSmtp` denied by the rate limiter returns
`{status: unknown, code: "rate_limited"}` with no DNS lookup and no
connection; otherwise it performs exactly one (MX-only) DNS lookup and walks
the MX hosts sequentially, returning the first per-host outcome whose status
is not `unknown` (connecting only up to that host), and a bare `unknown` when
every host — or an empty host list — is inconclusive.  The embedding is a
total function, so no error propagates to the caller. -/
theorem C2_probeSmtp_aggregate :
    ∀ (domain : String) (limit : Nat) (windowMs : Int) (bucket : List Int) (now : Int)
      (w : DnsWorld) (probe : String → SmtpProbeResult),
      ((rlAllow limit windowMs bucket now).1 = false →
        probeSmtp domain limit windowMs bucket now w probe
          = ({ status := .unknown, code := some "rate_limited" }, 0, [])) ∧
      ((rlAllow limit windowMs bucket now).1 = true →
        (probeSmtp domain limit windowMs bucket now w probe).2.1 = 1 ∧
        (∀ (hs1 : List String) (h : String) (hs2 : List String),
          (checkDNS domain { mx := some true, spf := some false, dmarc := some false }
              w).mxHosts.getD [] = hs1 ++ h :: hs2 →
          (∀ x ∈ hs1, (probe x).status = .unknown) →
          (probe h).status ≠ .unknown →
          probeSmtp domain limit windowMs bucket now w probe = (probe h, 1, hs1 ++ [h])) ∧
        ((∀ x ∈ (checkDNS domain { mx := some true, spf := some false, dmarc := some false }
              w).mxHosts.getD [], (probe x).status = .unknown) →
          (probeSmtp domain limit windowMs bucket now w probe).1
            = { status := .unknown })) := by
  intro domain limit windowMs bucket now w probe
  constructor
  · intro hdeny
    simp [probeSmtp, hdeny]
  · intro hallow
    refine ⟨?_, ?_, ?_⟩
    · simp only [probeSmtp, hallow, Bool.not_true, Bool.false_eq_true, if_false]
      split <;> simp
    · intro hs1 h hs2 hdecomp hall hne
      have hlen : ((checkDNS domain
          { mx := some true, spf := some false, dmarc := some false } w).mxHosts.getD
            []).length ≠ 0 := by
        rw [hdecomp]; simp
      simp only [probeSmtp, hallow, Bool.not_true, Bool.false_eq_true, if_false, hlen,
        if_false, hdecomp, probeHosts_first probe hs1 h hs2 hall hne]
      simp
    · intro hall
      rcases hmx : (checkDNS domain
          { mx := some true, spf := some false, dmarc := some false } w).mxHosts.getD []
        with _ | ⟨a, tl⟩
      · simp [probeSmtp, hallow, hmx]
      · rw [hmx] at hall
        simp [probeSmtp, hallow, hmx, probeHosts_all_unknown probe (a :: tl) hall]

section CacheLemmas

variable {V : Type}

theorem storeFind_nil (k : String) : storeFind ([] : CacheStore V) k = none := rfl

theorem storeFind_cons (k' : String) (e : CacheEntry V) (s : CacheStore V) (k : String) :
    storeFind ((k', e) :: s) k = if k' = k then some e else storeFind s k := by
  simp only [storeFind, List.find?]
  by_cases h : k' = k <;> simp [h]

theorem storeFind_eq_none_iff (s : CacheStore V) (k : String) :
    storeFind s k = none ↔ ∀ p ∈ s, p.1 ≠ k := by
  simp [storeFind, List.find?_eq_none]

theorem storeFind_append (s1 s2 : CacheStore V) (k : String) :
    storeFind (s1 ++ s2) k
      = match storeFind s1 k with
        | some e => some e
        | none => storeFind s2 k := by
  induction s1 with
  | nil => simp [storeFind_nil]
  | cons p tl ih =>
    rcases p with ⟨k', e⟩
    rw [List.cons_append, storeFind_cons, storeFind_cons]
    by_cases h : k' = k <;> simp [h, ih]

theorem storeDelete_cons (k' : String) (e : CacheEntry V) (s : CacheStore V) (k : String) :
    storeDelete ((k', e) :: s) k
      = if k' = k then storeDelete s k else (k', e) :: storeDelete s k := by
  simp only [storeDelete, List.filter]
  by_cases h : k' = k <;> simp [h]

theorem storeDelete_append (s1 s2 : CacheStore V) (k : String) :
    storeDelete (s1 ++ s2) k = storeDelete s1 k ++ storeDelete s2 k := by
  simp [storeDelete, List.filter_append]

theorem storeFind_delete_self (s : CacheStore V) (k : String) :
    storeFind (storeDelete s k) k = none := by
  rw [storeFind_eq_none_iff]
  intro p hp
  have := List.mem_filter.mp hp
  simpa using this.2

theorem storeFind_delete_ne (s : CacheStore V) (k k' : String) (h : k' ≠ k) :
    storeFind (storeDelete s k) k' = storeFind s k' := by
  induction s with
  | nil => rfl
  | cons p tl ih =>
    rcases p with ⟨k0, e⟩
    rw [storeDelete_cons, storeFind_cons]
    by_cases h0 : k0 = k
    · subst h0
      rw [if_pos rfl, ih, if_neg (fun hk => h hk.symm)]
    · rw [if_neg h0, storeFind_cons]
      by_cases h1 : k0 = k' <;> simp [h1, ih]

theorem storeDelete_of_find_none (s : CacheStore V) (k : String)
    (h : storeFind s k = none) : storeDelete s k = s := by
  rw [storeFind_eq_none_iff] at h
  exact List.filter_eq_self.mpr (fun p hp => by simpa using h p hp)

theorem storeFind_delete_other_none (s : CacheStore V) (k k0 : String)
    (h : storeFind s k = none) : storeFind (storeDelete s k0) k = none := by
  rw [storeFind_eq_none_iff] at h ⊢
  intro p hp
  exact h p (List.mem_filter.mp hp).1

end CacheLemmas

/-- After `set`, the entry stored for the key is the freshly built one
(provided the cache holds at least one entry, so the key itself cannot be the
eviction victim). -/
theorem cacheSet_find_self {V : Type} (maxEntries : Nat) (ttlMs : Int)
    (store : CacheStore V) (k : String) (v : V) (ttl : Option Int) (now : Int)
    (hmax : 1 ≤ maxEntries) :
    storeFind (cacheSet maxEntries ttlMs store k v ttl now) k
      = some { data := v, expiresAt := now + ttl.getD ttlMs } := by
  have hsome : storeFind (storeDelete store k ++
      [(k, ({ data := v, expiresAt := now + ttl.getD ttlMs } : CacheEntry V))]) k
      = some { data := v, expiresAt := now + ttl.getD ttlMs } := by
    rw [storeFind_append, storeFind_delete_self]
    simp [storeFind_cons]
  simp only [cacheSet]
  split <;> rename_i hlen
  · rcases hdel : storeDelete store k with _ | ⟨⟨pk, pe⟩, tl⟩
    · rw [hdel] at hlen
      simp at hlen
      omega
    · have hp1 : pk ≠ k := by
        have hmem : (pk, pe) ∈ storeDelete store k := by rw [hdel]; simp
        simpa using (List.mem_filter.mp hmem).2
      have hnone : storeFind (storeDelete tl pk) k = none := by
        have : storeFind tl k = none := by
          rw [storeFind_eq_none_iff]
          intro q hq
          have hqmem : q ∈ storeDelete store k := by rw [hdel]; simp [hq]
          simpa using (List.mem_filter.mp hqmem).2
        exact storeFind_delete_other_none tl k pk this
      simp [List.head?_cons, storeDelete_cons, storeDelete_append, storeFind_append,
        hnone, storeFind_cons, Ne.symm hp1, hp1]
  · rw [hsome]

/-- C9: for a fixed threshold triple, `computeVerdict` is monotone in the
score under the tier order `invalid < unknown < risky < valid`, and it equals
`valid` when `score ≥ validThreshold`, else `risky` when
`score ≥ riskyThreshold`, else `unknown` when `score ≥ unknownThreshold`,
else `invalid`. -/
theorem C9_computeVerdict_monotonic :
    (∀ (t : Thresholds) (s1 s2 : Int), s1 ≤ s2 →
      verdictTier (computeVerdict s1 (some t)) ≤ verdictTier (computeVerdict s2 (some t)))
    ∧ (∀ (t : Thresholds) (s : Int),
        (t.valid ≤ s → computeVerdict s (some t) = .valid)
        ∧ (s < t.valid → t.risky ≤ s → computeVerdict s (some t) = .risky)
        ∧ (s < t.valid → s < t.risky → t.unknown ≤ s →
            computeVerdict s (some t) = .unknown)
        ∧ (s < t.valid → s < t.risky → s < t.unknown →
            computeVerdict s (some t) = .invalid)) := by
  constructor
  · intro t s1 s2 hle
    simp only [computeVerdict, Option.getD_some]
    split_ifs <;> simp [verdictTier] <;> omega
  · intro t s
    refine ⟨fun h1 => ?_, fun h1 h2 => ?_, fun h1 h2 h3 => ?_, fun h1 h2 h3 => ?_⟩ <;>
      simp only [computeVerdict, Option.getD_some]
    · rw [if_pos h1]
    · rw [if_neg (by omega), if_pos h2]
    · rw [if_neg (by omega), if_neg (by omega), if_pos h3]
    · rw [if_neg (by omega), if_neg (by omega), if_neg (by omega)]

/-- Witness for C9 at concrete inputs. -/
theorem C9_computeVerdict_monotonic_witness :
    verdictTier (computeVerdict 50 (some DEFAULT_THRESHOLDS))
      ≤ verdictTier (computeVerdict 90 (some DEFAULT_THRESHOLDS)) :=
  C9_computeVerdict_monotonic.1 DEFAULT_THRESHOLDS 50 90 (by decide)

/-- Splitting never returns an empty segment list. -/
theorem splitOnChar_ne_nil (sep : Char) (l : List Char) : splitOnChar sep l ≠ [] := by
  cases l with
  | nil => simp [splitOnChar]
  | cons c cs =>
    simp only [splitOnChar]
    split <;> try simp
    split <;> simp

/-- The number of segments is one more than the number of separators. -/
theorem splitOnChar_length (sep : Char) (l : List Char) :
    (splitOnChar sep l).length = l.count sep + 1 := by
  induction l with
  | nil => simp [splitOnChar]
  | cons c cs ih =>
    simp only [splitOnChar]
    by_cases hc : c = sep
    · simp only [if_pos hc, List.length_cons, ih]
      subst hc
      simp [List.count_cons]
    · rw [if_neg hc]
      rcases hsplit : splitOnChar sep cs with _ | ⟨r, rs⟩
      · exact absurd hsplit (splitOnChar_ne_nil sep cs)
      · rw [hsplit] at ih
        simp only [List.length_cons] at ih ⊢
        rw [List.count_cons]
        simp [hc, ih]

/-- Dropping a prefix of characters not equal to `c` preserves the count
of `c`. -/
theorem count_dropWhile (p : Char → Bool) (l : List Char) (c : Char)
    (hc : p c = false) : (l.dropWhile p).count c = l.count c := by
  induction l with
  | nil => rfl
  | cons a as ih =>
    by_cases ha : p a = true
    · have hac : a ≠ c := fun h => by rw [h, hc] at ha; exact Bool.false_ne_true ha
      rw [List.dropWhile_cons_of_pos ha, ih, List.count_cons]
      simp [hac]
    · rw [List.dropWhile_cons_of_neg ha]

/-- Trimming preserves the count of any non-whitespace character. -/
theorem count_trimChars (l : List Char) (c : Char) (hc : isJsWhitespace c = false) :
    (trimChars l).count c = l.count c := by
  unfold trimChars
  rw [List.count_reverse, count_dropWhile _ _ _ hc, List.count_reverse,
    count_dropWhile _ _ _ hc]

/-- C8: for every input without exactly one `@`, or whose (trimmed) local or
domain part is empty, the validation result has verdict `invalid` and
confidence `0`, and the rest of the pipeline — whatever it would do — is
never invoked, so no DNS lookup or SMTP connection occurs. -/
theorem C8_syntax_gate :
    ∀ (toAscii : String → Option String) (syntaxCheck : String → Option String)
      (rest : NormalizedEmail → ResultCore × NetworkEffects) (email : String),
      (email.toList.count '@' ≠ 1
        ∨ (∃ d, jsSplit '@' (jsTrim email) = ["", d])
        ∨ (∃ l, jsSplit '@' (jsTrim email) = [l, ""])) →
      (runValidationGate toAscii syntaxCheck rest email).1.verdict = .invalid
      ∧ (runValidationGate toAscii syntaxCheck rest email).1.confidence = 0
      ∧ (runValidationGate toAscii syntaxCheck rest email).2
          = { dnsLookups := 0, smtpConnections := 0 } := by
  intro toAscii syntaxCheck rest email hbad
  rcases hbad with hcount | ⟨d, hsplit⟩ | ⟨l, hsplit⟩
  · have hlen : (jsSplit '@' (jsTrim email)).length = email.toList.count '@' + 1 := by
      have htrim : (jsTrim email).toList = trimChars email.toList := rfl
      simp only [jsSplit, List.length_map, htrim, splitOnChar_length]
      rw [count_trimChars email.toList '@' (by decide)]
    rcases hp : jsSplit '@' (jsTrim email) with _ | ⟨a, _ | ⟨b, _ | ⟨c, tl⟩⟩⟩
    · simp [runValidationGate, normalizeEmail, hp, buildInvalidResult]
    · simp [runValidationGate, normalizeEmail, hp, buildInvalidResult]
    · rw [hp] at hlen
      simp only [List.length_cons, List.length_nil] at hlen
      omega
    · simp [runValidationGate, normalizeEmail, hp, buildInvalidResult]
  · simp [runValidationGate, normalizeEmail, hsplit, buildInvalidResult]
  · by_cases hl : l = ""
    · subst hl
      simp [runValidationGate, normalizeEmail, hsplit, buildInvalidResult]
    · simp [runValidationGate, normalizeEmail, hsplit, buildInvalidResult, hl]

/-- Witness for C8 at concrete inputs: an address with no `@` is rejected at
the gate with no network effects, for an arbitrary concrete pipeline rest. -/
theorem C8_syntax_gate_witness :
    (runValidationGate (fun d => some d) (fun _ => none)
        (fun _ => ({ verdict := .valid, confidence := 100, reasons := [] },
                   { dnsLookups := 5, smtpConnections := 3 })) "not-an-email").1.verdict
      = .invalid
    ∧ (runValidationGate (fun d => some d) (fun _ => none)
        (fun _ => ({ verdict := .valid, confidence := 100, reasons := [] },
                   { dnsLookups := 5, smtpConnections := 3 })) "not-an-email").2
      = { dnsLookups := 0, smtpConnections := 0 } := by
  have h := C8_syntax_gate (fun d => some d) (fun _ => none)
    (fun _ => ({ verdict := .valid, confidence := 100, reasons := [] },
               { dnsLookups := 5, smtpConnections := 3 })) "not-an-email"
    (Or.inl (by decide))
  exact ⟨h.1, h.2.2⟩

/-- Inserting a fresh key into a full cache (with distinct keys) evicts
exactly the least-recently-touched entry: the head of the recency list. -/
theorem cacheSet_evicts_head {V : Type} (maxEntries : Nat) (ttlMs : Int)
    (store : CacheStore V) (k : String) (v : V) (ttl : Option Int) (now : Int)
    (hfresh : storeFind store k = none)
    (hlen : store.length = maxEntries)
    (hmax : 1 ≤ maxEntries)
    (hnodup : (store.map Prod.fst).Nodup) :
    cacheSet maxEntries ttlMs store k v ttl now
      = store.tail ++ [(k, { data := v, expiresAt := now + ttl.getD ttlMs })] := by
  have hdel : storeDelete store k = store := storeDelete_of_find_none store k hfresh
  rcases store with _ | ⟨⟨pk, pe⟩, tl⟩
  · simp at hlen
    omega
  · have hkeys : ∀ p ∈ tl, p.1 ≠ pk := by
      intro p hp
      simp only [List.map_cons, List.nodup_cons] at hnodup
      intro hcontra
      exact hnodup.1 (hcontra ▸ List.mem_map_of_mem Prod.fst hp)
    have hpk_ne : pk ≠ k := by
      have : (pk, pe).1 ≠ k := by
        rw [storeFind_eq_none_iff] at hfresh
        exact hfresh (pk, pe) (by simp)
      simpa using this
    have htl_del : storeDelete tl pk = tl := by
      apply storeDelete_of_find_none
      rw [storeFind_eq_none_iff]
      exact hkeys
    simp only [cacheSet, hdel]
    rw [if_pos (by simp [← hlen])]
    simp [storeDelete_cons, storeDelete_append, htl_del, Ne.symm hpk_ne, storeDelete]
    exact fun a b hab => hkeys (a, b) hab

/-- C7: `get` on an expired entry reports it absent and removes it; `set`
followed by `get` on the same key returns the stored value before the TTL
elapses and absent after it; `set` always leaves the key's (single, fresh)
entry at the recency end, overwriting any previous entry for the key; a fresh
insertion into a full cache with distinct keys evicts exactly the
least-recently-touched entry; and with `maxEntries = 2`, inserting `a`, `b`,
touching `a`, then inserting `c` evicts exactly `b`. -/
theorem C7_dns_cache :
    (∀ (V : Type) (store : CacheStore V) (k : String) (now : Int) (e : CacheEntry V),
      storeFind store k = some e → e.expiresAt < now →
      cacheGet store k now = (none, storeDelete store k))
    ∧ (∀ (V : Type) (maxEntries : Nat) (ttlMs : Int) (store : CacheStore V)
        (k : String) (v : V) (t now1 now2 : Int), 1 ≤ maxEntries →
        ((now2 ≤ now1 + t →
          (cacheGet (cacheSet maxEntries ttlMs store k v (some t) now1) k now2).1
            = some { data := v, expiresAt := now1 + t })
          ∧ (now1 + t < now2 →
            (cacheGet (cacheSet maxEntries ttlMs store k v (some t) now1) k now2).1
              = none)))
    ∧ (∀ (V : Type) (maxEntries : Nat) (ttlMs : Int) (store : CacheStore V)
        (k : String) (v : V) (ttl : Option Int) (now : Int), 1 ≤ maxEntries →
        ∃ s', cacheSet maxEntries ttlMs store k v ttl now
            = s' ++ [(k, { data := v, expiresAt := now + ttl.getD ttlMs })]
          ∧ storeFind s' k = none)
    ∧ (∀ (V : Type) (maxEntries : Nat) (ttlMs : Int) (store : CacheStore V)
        (k : String) (v : V) (ttl : Option Int) (now : Int),
        storeFind store k = none → store.length = maxEntries → 1 ≤ maxEntries →
        (store.map Prod.fst).Nodup →
        cacheSet maxEntries ttlMs store k v ttl now
          = store.tail ++ [(k, { data := v, expiresAt := now + ttl.getD ttlMs })])
    ∧ (((cacheSet 2 600000
          ((cacheGet (cacheSet 2 600000 (cacheSet 2 600000 ([] : CacheStore Nat)
              "a" 1 none 0) "b" 2 none 1) "a" 2).2)
          "c" 3 none 3).map Prod.fst) = ["a", "c"]) := by
  refine ⟨?_, ?_, ?_, ?_, by decide⟩
  · intro V store k now e hfind hexp
    simp [cacheGet, hfind, hexp]
  · intro V maxEntries ttlMs store k v t now1 now2 hmax
    have hfind := cacheSet_find_self maxEntries ttlMs store k v (some t) now1 hmax
    simp only [Option.getD_some] at hfind
    constructor
    · intro hlive
      simp [cacheGet, hfind, show ¬((now1 + t : Int) < now2) from by omega]
    · intro hexp
      simp [cacheGet, hfind, hexp]
  · intro V maxEntries ttlMs store k v ttl now hmax
    simp only [cacheSet]
    split <;> rename_i hlen
    · rcases hdel : storeDelete store k with _ | ⟨⟨pk, pe⟩, tl⟩
      · rw [hdel] at hlen
        simp at hlen
        omega
      · have hp1 : pk ≠ k := by
          have hmem : (pk, pe) ∈ storeDelete store k := by rw [hdel]; simp
          simpa using (List.mem_filter.mp hmem).2
        have hnone : storeFind (storeDelete tl pk) k = none := by
          have : storeFind tl k = none := by
            rw [storeFind_eq_none_iff]
            intro q hq
            have hqmem : q ∈ storeDelete store k := by rw [hdel]; simp [hq]
            simpa using (List.mem_filter.mp hqmem).2
          exact storeFind_delete_other_none tl k pk this
        refine ⟨storeDelete tl pk, ?_, hnone⟩
        simp [List.head?_cons, storeDelete_cons, storeDelete_append, Ne.symm hp1,
          storeDelete]
    · exact ⟨storeDelete store k, rfl, storeFind_delete_self store k⟩
  · intro V maxEntries ttlMs store k v ttl now hfresh hlen hmax hnodup
    exact cacheSet_evicts_head maxEntries ttlMs store k v ttl now hfresh hlen hmax hnodup

/-- Witness for C7 at concrete inputs: a value set with TTL 1000 at time 0 is
returned at time 500 and absent at time 1500. -/
theorem C7_dns_cache_witness :
    (cacheGet (cacheSet 2000 600000 ([] : CacheStore Nat) "MX:a.com" 7 (some 1000) 0)
        "MX:a.com" 500).1 = some { data := 7, expiresAt := 1000 }
    ∧ (cacheGet (cacheSet 2000 600000 ([] : CacheStore Nat) "MX:a.com" 7 (some 1000) 0)
        "MX:a.com" 1500).1 = none :=
  ⟨(C7_dns_cache.2.1 Nat 2000 600000 [] "MX:a.com" 7 1000 0 500 (by decide)).1 (by decide),
   (C7_dns_cache.2.1 Nat 2000 600000 [] "MX:a.com" 7 1000 0 1500 (by decide)).2 (by decide)⟩

/-- C10: `get` on a present, unexpired entry returns the stored entry with its
`data` and `expiresAt` unchanged, writes back exactly the same entry (moved to
the recency end), and leaves the entry stored for every key — including the
touched one — unchanged; in particular `get` never extends a lifetime, only
`set` assigns a new expiry. -/
theorem C10_cacheGet_frame :
    ∀ (V : Type) (store : CacheStore V) (k : String) (now : Int) (e : CacheEntry V),
      storeFind store k = some e → ¬ e.expiresAt < now →
      (cacheGet store k now).1 = some e
      ∧ (cacheGet store k now).2 = storeDelete store k ++ [(k, e)]
      ∧ (∀ k', storeFind (cacheGet store k now).2 k' = storeFind store k') := by
  intro V store k now e hfind hlive
  have hget : cacheGet store k now = (some e, storeDelete store k ++ [(k, e)]) := by
    simp [cacheGet, hfind, hlive]
  refine ⟨by rw [hget], by rw [hget], ?_⟩
  intro k'
  rw [hget]
  by_cases hk : k' = k
  · subst hk
    rw [storeFind_append, storeFind_delete_self]
    simp [storeFind_cons, hfind]
  · rw [storeFind_append, storeFind_delete_ne store k k' hk]
    rcases h : storeFind store k' with _ | e'
    · rw [storeFind_cons, if_neg (fun h' => hk h'.symm)]
      rfl
    · simp

/-- Witness for C10 at concrete inputs. -/
theorem C10_cacheGet_frame_witness :
    (cacheGet [("k", ({ data := 5, expiresAt := 100 } : CacheEntry Nat))] "k" 50).1
      = some { data := 5, expiresAt := 100 } :=
  (C10_cacheGet_frame Nat [("k", { data := 5, expiresAt := 100 })] "k" 50
    { data := 5, expiresAt := 100 } (by decide) (by decide)).1

/-- Unfolding of one step of `rlAllowSeq`. -/
theorem rlAllowSeq_cons (limit : Nat) (windowMs : Int) (bucket : List Int)
    (now : Int) (rest : List Int) :
    rlAllowSeq limit windowMs bucket (now :: rest)
      = ((rlAllow limit windowMs bucket now).1
            :: (rlAllowSeq limit windowMs (rlAllow limit windowMs bucket now).2 rest).1,
         (rlAllowSeq limit windowMs (rlAllow limit windowMs bucket now).2 rest).2) := rfl

/-- One `allow` call never grows the bucket past `limit`. -/
theorem rlAllow_length_le (limit : Nat) (windowMs : Int) (bucket : List Int)
    (now : Int) (hb : bucket.length ≤ limit) :
    (rlAllow limit windowMs bucket now).2.length ≤ limit := by
  simp only [rlAllow]
  split
  · exact le_trans (List.length_filter_le _ _) hb
  · rename_i hlt
    simp only [List.length_append, List.length_cons, List.length_nil]
    omega

/-- Along any sequence of `allow` calls from a bucket within the limit, the
bucket stays within the limit. -/
theorem rlAllowSeq_length_le (limit : Nat) (windowMs : Int) :
    ∀ (times : List Int) (bucket : List Int), bucket.length ≤ limit →
      (rlAllowSeq limit windowMs bucket times).2.length ≤ limit := by
  intro times
  induction times with
  | nil => intro bucket hb; simpa [rlAllowSeq] using hb
  | cons now rest ih =>
    intro bucket hb
    rw [rlAllowSeq_cons]
    exact ih _ (rlAllow_length_le limit windowMs bucket now hb)

/-- C6: each `allow` call prunes the timestamps older than `now - windowMs`,
admits (appending `now`) exactly when the pruned count is below the limit, and
otherwise returns false leaving the bucket pruned but unmodified; after the
call the bucket holds no timestamp older than the window and — along any call
sequence started from an empty bucket — at most `limit` timestamps.  With
`limit = 2` and `windowMs = 1000`, two calls at time 0 succeed, a third at
time 0 fails, and a call at time 1001 succeeds again. -/
theorem C6_rate_limiter :
    (∀ (limit : Nat) (windowMs : Int) (bucket : List Int) (now : Int),
      ((rlAllow limit windowMs bucket now).1 = true ↔
        (bucket.filter (fun ts => now - windowMs ≤ ts)).length < limit) ∧
      ((rlAllow limit windowMs bucket now).1 = true →
        (rlAllow limit windowMs bucket now).2
          = bucket.filter (fun ts => now - windowMs ≤ ts) ++ [now]) ∧
      ((rlAllow limit windowMs bucket now).1 = false →
        (rlAllow limit windowMs bucket now).2
          = bucket.filter (fun ts => now - windowMs ≤ ts)) ∧
      (0 ≤ windowMs → ∀ ts ∈ (rlAllow limit windowMs bucket now).2,
        now - windowMs ≤ ts) ∧
      (bucket.length ≤ limit → (rlAllow limit windowMs bucket now).2.length ≤ limit))
    ∧ (∀ (limit : Nat) (windowMs : Int) (times : List Int),
        (rlAllowSeq limit windowMs [] times).2.length ≤ limit)
    ∧ (rlAllowSeq 2 1000 [] [0, 0, 0, 1001]).1 = [true, true, false, true] := by
  refine ⟨?_, fun limit windowMs times => rlAllowSeq_length_le limit windowMs times [] (by simp), by decide⟩
  intro limit windowMs bucket now
  refine ⟨?_, ?_, ?_, ?_, rlAllow_length_le limit windowMs bucket now⟩
  · simp only [rlAllow]
    split <;> rename_i hsplit
    · exact ⟨fun h => by simp at h, fun h => absurd h (by omega)⟩
    · exact ⟨fun _ => by omega, fun _ => rfl⟩
  · intro htrue
    simp only [rlAllow] at htrue ⊢
    split <;> rename_i hsplit
    · rw [if_pos hsplit] at htrue; simp at htrue
    · rfl
  · intro hfalse
    simp only [rlAllow] at hfalse ⊢
    split <;> rename_i hsplit
    · rfl
    · rw [if_neg hsplit] at hfalse; simp at hfalse
  · intro hw ts hts
    simp only [rlAllow] at hts
    have hfilter : ∀ x ∈ bucket.filter (fun ts => decide (now - windowMs ≤ ts)),
        now - windowMs ≤ x := by
      intro x hx
      exact of_decide_eq_true (List.mem_filter.mp hx).2
    rcases Decidable.em
        (limit ≤ (bucket.filter (fun ts => decide (now - windowMs ≤ ts))).length)
      with hle | hlt
    · rw [if_pos hle] at hts
      exact hfilter ts hts
    · rw [if_neg hlt] at hts
      simp only [List.mem_append, List.mem_singleton] at hts
      rcases hts with hts | rfl
      · exact hfilter ts hts
      · omega

/-- Witness for C6 at concrete inputs. -/
theorem C6_rate_limiter_witness :
    (rlAllow 2 1000 [0, 0] 0).1 = false ∧ (rlAllow 2 1000 [0, 0] 0).2 = [0, 0] :=
  ⟨by decide, (C6_rate_limiter.1 2 1000 [0, 0] 0).2.2.1 (by decide)⟩

/-- Counterexample to C4: with the MX lookup disabled (`opts.mx === false`),
a domain whose world has an MX record but nothing else gets
`domainExists = false` even though an MX record is present — the claimed
iff fails for that option set. -/
theorem C4_domainExists_counterexample :
    (checkDNS "example.com" { mx := some false, spf := some true, dmarc := some true }
        { mx := .ok [{ exchange := "mx.example.com", priority := 10 }],
          rootTxt := .err, dmarcTxt := .err, a := .err, aaaa := .err }).domainExists = false
      ∧ specDomainExists
        { mx := .ok [{ exchange := "mx.example.com", priority := 10 }],
          rootTxt := .err, dmarcTxt := .err, a := .err, aaaa := .err } = true := by
  decide

/-- C4 as amended: `domainExists` is true iff at least one of {MX present,
root TXT (with non-empty content) present, A record present, AAAA record
present} holds, where the MX disjunct counts only when the MX lookup is
enabled (`opts.mx !== false`) and the root TXT disjunct only when the SPF
lookup is enabled (`opts.spf !== false`); in particular, with both lookups
enabled (the default) the claimed iff holds exactly. -/
theorem C4_domainExists_characterization :
    ∀ (domain : String) (opts : DnsOpts) (w : DnsWorld),
      ((checkDNS domain opts w).domainExists
        = ((decide (opts.mx ≠ some false) && worldMxPresent w)
            || (decide (opts.spf ≠ some false) && worldRootTxtPresent w)
            || worldAPresent w || worldAaaaPresent w))
      ∧ (opts.mx ≠ some false → opts.spf ≠ some false →
          (checkDNS domain opts w).domainExists = specDomainExists w) := by
  intro domain opts w
  have hmain : (checkDNS domain opts w).domainExists
      = ((decide (opts.mx ≠ some false) && worldMxPresent w)
          || (decide (opts.spf ≠ some false) && worldRootTxtPresent w)
          || worldAPresent w || worldAaaaPresent w) := by
    rcases w with ⟨mx, rootTxt, dmarcTxt, a, aaaa⟩
    by_cases hmx : opts.mx = some false <;> by_cases hspf : opts.spf = some false <;>
      cases mx <;> cases rootTxt <;>
      simp [checkDNS, computeDomainExists, worldMxPresent, worldRootTxtPresent,
        worldAPresent, worldAaaaPresent, hmx, hspf] <;>
      split_ifs <;> simp_all
  refine ⟨hmain, fun hmx hspf => ?_⟩
  rw [hmain]
  simp [specDomainExists, hmx, hspf]

/-- Witness for the amended C4 at concrete inputs: with default options and a
world holding only an A record, `domainExists` is true and agrees with the
spec's disjunction. -/
theorem C4_domainExists_characterization_witness :
    (checkDNS "example.com" {}
        { mx := .err, rootTxt := .err, dmarcTxt := .err,
          a := .ok ["93.184.216.34"], aaaa := .err }).domainExists
      = specDomainExists
        { mx := .err, rootTxt := .err, dmarcTxt := .err,
          a := .ok ["93.184.216.34"], aaaa := .err } :=
  (C4_domainExists_characterization "example.com" {}
    { mx := .err, rootTxt := .err, dmarcTxt := .err,
      a := .ok ["93.184.216.34"], aaaa := .err }).2 (by decide) (by decide)

/-- A host whose probe reports an error marker is skipped by the catch-all
host loop. -/
theorem catchAllLoop_skip (probe : String → CatchAllProbeOutcome) (h : String)
    (rest : List String) (herr : (probe h).error.isSome = true) :
    catchAllLoop probe (h :: rest) = catchAllLoop probe rest := by
  simp [catchAllLoop, herr]

/-- The catch-all host loop decides at the first host reporting no error
marker, with high confidence. -/
theorem catchAllLoop_first (probe : String → CatchAllProbeOutcome) (hs1 : List String)
    (h : String) (hs2 : List String)
    (hall : ∀ x ∈ hs1, (probe x).error.isSome = true)
    (hnone : (probe h).error = none) :
    catchAllLoop probe (hs1 ++ h :: hs2)
      = if (probe h).accepts then
          { isCatchAll := true, confidence := .high, method := .smtp_probe,
            details := some ("Random address accepted by " ++ h) }
        else
          { isCatchAll := false, confidence := .high, method := .smtp_probe,
            details := some ("Random address rejected with code "
              ++ ((probe h).code.getD "undefined")) } := by
  induction hs1 with
  | nil => simp [catchAllLoop, hnone]
  | cons a tl ih =>
    have ha : (probe a).error.isSome = true := hall a (by simp)
    have htl : ∀ x ∈ tl, (probe x).error.isSome = true := fun x hx => hall x (by simp [hx])
    rw [List.cons_append, catchAllLoop_skip probe a (tl ++ h :: hs2) ha, ih htl]

/-- When every host reports an error marker the catch-all host loop gives
up with low confidence. -/
theorem catchAllLoop_all_err (probe : String → CatchAllProbeOutcome)
    (hosts : List String) (hall : ∀ x ∈ hosts, (probe x).error.isSome = true) :
    catchAllLoop probe hosts
      = { isCatchAll := false, confidence := .low, method := .unknown,
          details := some "Could not connect to any MX host" } := by
  induction hosts with
  | nil => simp [catchAllLoop]
  | cons a tl ih =>
    have ha : (probe a).error.isSome = true := hall a (by simp)
    have htl : ∀ x ∈ tl, (probe x).error.isSome = true := fun x hx => hall x (by simp [hx])
    rw [catchAllLoop_skip probe a tl ha, ih htl]

/-- Counterexample to C5: a single MX host whose conversation reaches RCPT and
replies with the 5xx code `552` is marked `unexpected_response` — inconclusive
— so the detector continues past it and, it being the only host, ends with
`{isCatchAll: false, confidence: low, method: unknown}` rather than the
claimed high-confidence rejection. -/
theorem C5_catchall_counterexample :
    (runCaSession "x@example.com"
        [.data "220 hi", .data "250 ok", .data "250 ok",
         .data "552 mailbox full"]).resolved
      = some { accepts := false, code := some "552", error := some "unexpected_response" }
    ∧ checkCatchAll "example.com"
        { mx := .ok [{ exchange := "mx1.example.com", priority := 10 }],
          rootTxt := .err, dmarcTxt := .err, a := .err, aaaa := .err }
        (fun _ => { accepts := false, code := some "552",
                    error := some "unexpected_response" })
      = { isCatchAll := false, confidence := .low, method := .unknown,
          details := some "Could not connect to any MX host" } := by
  decide

/-- C5 as amended: with no MX hosts, `checkCatchAll` reports
`{isCatchAll: false, confidence: low, method: unknown}`.  At RCPT, a `250`
reply resolves the host's probe as accepting, a `550`/`551`/`553` reply as a
definitive rejection, a `4xx` reply as inconclusive (`temporary_error`), and
any other reply — including 5xx codes other than 550/551/553 — as
inconclusive (`unexpected_response`); a timeout, socket error or remote close
is likewise inconclusive.  The first host whose probe is conclusive decides
the outcome with high confidence (acceptance means catch-all, rejection means
not), inconclusive hosts are skipped, and if every host is inconclusive the
result has low confidence. -/
theorem C5_checkCatchAll_behavior :
    (∀ (domain : String) (w : DnsWorld) (probe : String → CatchAllProbeOutcome),
      (checkDNS domain { mx := some true, spf := some false, dmarc := some false }
          w).mxHosts.getD [] = [] →
      checkCatchAll domain w probe
        = { isCatchAll := false, confidence := .low, method := .unknown,
            details := some "No MX records found" })
    ∧ (∀ (testEmail : String) (s : CaSessionState) (text : String),
        s.stage = .rcpt → s.resolved = none →
        ((strStartsWith (lastLineOf text) "250" = true →
            (caStepSession testEmail s (.data text)).resolved
              = some { accepts := true, code := some "250" }) ∧
         (∀ c, (c = "550" ∨ c = "551" ∨ c = "553") →
            strStartsWith (lastLineOf text) c = true →
            (caStepSession testEmail s (.data text)).resolved
              = some { accepts := false, code := some c }) ∧
         (∀ c, parseCode (lastLineOf text) = some c →
            strStartsWith (lastLineOf text) "4" = true →
            (caStepSession testEmail s (.data text)).resolved
              = some { accepts := false, code := some c,
                       error := some "temporary_error" }) ∧
         (∀ c, parseCode (lastLineOf text) = some c →
            strStartsWith (lastLineOf text) "250" = false →
            strStartsWith (lastLineOf text) "550" = false →
            strStartsWith (lastLineOf text) "551" = false →
            strStartsWith (lastLineOf text) "553" = false →
            strStartsWith (lastLineOf text) "4" = false →
            (caStepSession testEmail s (.data text)).resolved
              = some { accepts := false, code := some c,
                       error := some "unexpected_response" })))
    ∧ (∀ (testEmail : String) (s : CaSessionState), s.resolved = none →
        ((caStepSession testEmail s .timeout).resolved.map (·.error.isSome) = some true
          ∧ (caStepSession testEmail s .socketError).resolved.map (·.error.isSome)
              = some true
          ∧ (caStepSession testEmail s .socketEnd).resolved.map (·.error.isSome)
              = some true))
    ∧ (∀ (domain : String) (w : DnsWorld) (probe : String → CatchAllProbeOutcome)
         (hs1 : List String) (h : String) (hs2 : List String),
        (checkDNS domain { mx := some true, spf := some false, dmarc := some false }
            w).mxHosts.getD [] = hs1 ++ h :: hs2 →
        (∀ x ∈ hs1, (probe x).error.isSome = true) →
        (probe h).error = none →
        checkCatchAll domain w probe
          = if (probe h).accepts then
              { isCatchAll := true, confidence := .high, method := .smtp_probe,
                details := some ("Random address accepted by " ++ h) }
            else
              { isCatchAll := false, confidence := .high, method := .smtp_probe,
                details := some ("Random address rejected with code "
                  ++ ((probe h).code.getD "undefined")) })
    ∧ (∀ (domain : String) (w : DnsWorld) (probe : String → CatchAllProbeOutcome),
        (∀ x ∈ (checkDNS domain
            { mx := some true, spf := some false, dmarc := some false }
            w).mxHosts.getD [], (probe x).error.isSome = true) →
        (checkCatchAll domain w probe).confidence = .low) := by
  refine ⟨?_, ?_, ?_, ?_, ?_⟩
  · intro domain w probe hmx
    simp [checkCatchAll, hmx]
  · intro testEmail s text hst hres
    refine ⟨?_, ?_, ?_, ?_⟩
    · intro h250
      obtain ⟨t, ht⟩ := starts_toList h250
      rw [show ("250" : String).toList = ['2', '5', '0'] from by decide] at ht
      simp only [List.cons_append, List.nil_append] at ht
      have hp : parseCode (lastLineOf text) = some "250" := parseCode_of_toList ht rfl rfl rfl
      simp [caStepSession, hres, caOnData, hst, hp, h250]
    · rintro c (rfl | rfl | rfl) hc
      · obtain ⟨t, ht⟩ := starts_toList hc
        rw [show ("550" : String).toList = ['5', '5', '0'] from by decide] at ht
        simp only [List.cons_append, List.nil_append] at ht
        have hp : parseCode (lastLineOf text) = some "550" := parseCode_of_toList ht rfl rfl rfl
        have h250 : strStartsWith (lastLineOf text) "250" = false := by
          unfold strStartsWith; rw [ht]; rfl
        simp [caStepSession, hres, caOnData, hst, hp, h250, hc]
      · obtain ⟨t, ht⟩ := starts_toList hc
        rw [show ("551" : String).toList = ['5', '5', '1'] from by decide] at ht
        simp only [List.cons_append, List.nil_append] at ht
        have hp : parseCode (lastLineOf text) = some "551" := parseCode_of_toList ht rfl rfl rfl
        have h250 : strStartsWith (lastLineOf text) "250" = false := by
          unfold strStartsWith; rw [ht]; rfl
        simp [caStepSession, hres, caOnData, hst, hp, h250, hc]
      · obtain ⟨t, ht⟩ := starts_toList hc
        rw [show ("553" : String).toList = ['5', '5', '3'] from by decide] at ht
        simp only [List.cons_append, List.nil_append] at ht
        have hp : parseCode (lastLineOf text) = some "553" := parseCode_of_toList ht rfl rfl rfl
        have h250 : strStartsWith (lastLineOf text) "250" = false := by
          unfold strStartsWith; rw [ht]; rfl
        simp [caStepSession, hres, caOnData, hst, hp, h250, hc]
    · intro c hp h4
      obtain ⟨t, ht⟩ := starts_toList h4
      rw [show ("4" : String).toList = ['4'] from by decide] at ht
      simp only [List.cons_append, List.nil_append] at ht
      have h250 : strStartsWith (lastLineOf text) "250" = false := by
        unfold strStartsWith; rw [ht]; rfl
      have h550 : strStartsWith (lastLineOf text) "550" = false := by
        unfold strStartsWith; rw [ht]; rfl
      have h551 : strStartsWith (lastLineOf text) "551" = false := by
        unfold strStartsWith; rw [ht]; rfl
      have h553 : strStartsWith (lastLineOf text) "553" = false := by
        unfold strStartsWith; rw [ht]; rfl
      simp [caStepSession, hres, caOnData, hst, hp, h250, h550, h551, h553, h4]
    · intro c hp h250 h550 h551 h553 h4
      simp [caStepSession, hres, caOnData, hst, hp, h250, h550, h551, h553, h4]
  · intro testEmail s hres
    refine ⟨?_, ?_, ?_⟩ <;> simp [caStepSession, hres]
  · intro domain w probe hs1 h hs2 hdecomp hall hnone
    rw [checkCatchAll.eq_def]
    simp only [hdecomp]
    rw [if_neg (by simp)]
    exact catchAllLoop_first probe hs1 h hs2 hall hnone
  · intro domain w probe hall
    rcases hmx : (checkDNS domain
        { mx := some true, spf := some false, dmarc := some false }
        w).mxHosts.getD [] with _ | ⟨a, tl⟩
    · simp [checkCatchAll, hmx]
    · rw [hmx] at hall
      rw [checkCatchAll.eq_def]
      simp only [hmx]
      rw [catchAllLoop_all_err probe (a :: tl) hall]
      simp

/-- Witness for the amended C5 at concrete inputs: a world with no MX records
gives the low-confidence `unknown` result. -/
theorem C5_checkCatchAll_behavior_witness :
    checkCatchAll "example.com"
        { mx := .err, rootTxt := .err, dmarcTxt := .err, a := .err, aaaa := .err }
        (fun _ => { accepts := false })
      = { isCatchAll := false, confidence := .low, method := .unknown,
          details := some "No MX records found" } :=
  C5_checkCatchAll_behavior.1 "example.com"
    { mx := .err, rootTxt := .err, dmarcTxt := .err, a := .err, aaaa := .err }
    (fun _ => { accepts := false }) (by decide)

/-- Witness for C2 at concrete inputs: a limiter with `limit = 0` denies, and
the denied branch performs no network I/O. -/
theorem C2_probeSmtp_aggregate_witness :
    probeSmtp "example.com" 0 60000 [] 0
        { mx := .err, rootTxt := .err, dmarcTxt := .err, a := .err, aaaa := .err }
        (fun _ => { status := .unknown })
      = ({ status := .unknown, code := some "rate_limited" }, 0, []) :=
  (C2_probeSmtp_aggregate "example.com" 0 60000 [] 0
    { mx := .err, rootTxt := .err, dmarcTxt := .err, a := .err, aaaa := .err }
    (fun _ => { status := .unknown })).1 (by decide)

end PmEmail
